import Mathlib

/-!
Verification of the installation orchestration engine of the hyprcore
repository (src/install.py and src/HxA.py), as described by its
natural-language specification.

The engine runs a fixed ordered list of installation steps on a worker
thread.  Each step issues external commands through two runners:
`run_user_command` (plain subprocess) and `run_polkit_command` (subprocess
wrapped in a privilege-escalation agent).  In `src/install.py` both runners
poll the subprocess in a loop: every iteration first checks the elapsed
time against the timeout, then polls the process for termination, then
drains the (non-blocking) pipes and sleeps 0.1 s.  We model time
discretely: one tick = one poll interval (0.1 s), so a `timeout=` value of
`T` ticks corresponds to `T * 0.1` seconds.  A subprocess is described by
the tick at which `poll()` first observes its termination (`none` when it
never terminates), its return code, and whether spawning it raised an
exception (which the Python code catches and maps to `False`).
-/

namespace Hyprcore

namespace Install

/-- A subprocess as observed by the polling loop of `src/install.py`:
`finish` is the tick at which `process.poll()` first reports termination
(`none` if the process outlives every poll), `returncode` its exit status,
and `spawnErr` whether `subprocess.Popen` raised (missing executable etc.),
which the surrounding `try/except` catches. -/
structure ProcEnv where
  finish : Option Nat
  returncode : Int
  spawnErr : Bool
deriving DecidableEq, Repr

/-- Exit of the polling loop: either the process was observed terminated at
the given tick, or the timeout check fired at the given tick. -/
inductive LoopExit where
  | finished (tick : Nat)
  | timedOut (tick : Nat)
deriving DecidableEq, Repr

/-- Whether `process.poll()` reports termination at tick `k`. -/
def finishedBy : Option Nat → Nat → Bool
  | none, _ => false
  | some f, k => decide (f ≤ k)

/-- One-to-one translation of the `while True` loop of `run_user_command` /
`run_polkit_command` in `src/install.py`: at each tick `k` first check
`time.time() - start_time > timeout` (here `T < k`), then `process.poll()`,
otherwise drain pipes, `time.sleep(0.1)` (recorded as a wait of one tick in
the second component) and go round again.  The fuel argument is an upper
bound on the number of iterations; `T + 2` always suffices because the
timeout check fires at tick `T + 1` at the latest. -/
def pollLoopAux (T : Nat) (finish : Option Nat) : Nat → Nat → LoopExit × List Nat
  | k, 0 => (.timedOut k, [])
  | k, fuel + 1 =>
    if T < k then (.timedOut k, [])
    else if finishedBy finish k then (.finished k, [])
    else
      let r := pollLoopAux T finish (k + 1) fuel
      (r.1, 1 :: r.2)

/-- The polling loop of `src/install.py`, started at tick 0 with enough fuel. -/
def pollLoop (T : Nat) (finish : Option Nat) : LoopExit :=
  (pollLoopAux T finish 0 (T + 2)).1

/-- The sleeps performed by the polling loop (each `time.sleep(0.1)` is one
tick). -/
def pollWaits (T : Nat) (finish : Option Nat) : List Nat :=
  (pollLoopAux T finish 0 (T + 2)).2

/-- Process-control signals a runner may send. -/
inductive ProcAction where
  | terminate
  | kill
deriving DecidableEq, Repr

/-- Result of one runner call in `src/install.py`: the boolean handed back
to the caller, the process-control signals sent, and the tick at which the
loop exited (0 for a spawn failure, which never enters the loop). -/
structure RunOut where
  ok : Bool
  actions : List ProcAction
  tick : Nat
deriving DecidableEq, Repr

/-- Translation of what `src/install.py` does after the loop exits: on the
timeout branch it calls `process.terminate()`, logs, and returns `False`
immediately; on the finished branch it calls `communicate()` and returns
`returncode == 0`. -/
def runFromExit (rc : Int) (ex : LoopExit) : RunOut :=
  match ex with
  | .timedOut t => ⟨false, [.terminate], t⟩
  | .finished t => ⟨rc == 0, [], t⟩

/-- `run_user_command` of `src/install.py` (default `timeout=120` s, i.e.
`T = 1200` ticks): spawn errors are caught and mapped to `False`; otherwise
the polling loop runs and the result is derived from its exit. -/
def run_user_command (T : Nat) (p : ProcEnv) : RunOut :=
  if p.spawnErr then ⟨false, [], 0⟩
  else runFromExit p.returncode (pollLoop T p.finish)

/-- `run_polkit_command` of `src/install.py` (default `timeout=300` s, i.e.
`T = 3000` ticks).  Apart from wrapping the command in `pkexec` and extra
logging, its control flow is identical to `run_user_command`; in
particular a denied `pkexec` authentication is just a nonzero
`returncode` (126/127). -/
def run_polkit_command (T : Nat) (p : ProcEnv) : RunOut :=
  if p.spawnErr then ⟨false, [], 0⟩
  else runFromExit p.returncode (pollLoop T p.finish)

theorem run_polkit_eq_run_user (T : Nat) (p : ProcEnv) :
    run_polkit_command T p = run_user_command T p := rfl

theorem pollLoopAux_stillRunning (T : Nat) (finish : Option Nat)
    (hfin : ∀ f, finish = some f → T < f) :
    ∀ fuel k, k ≤ T + 1 → T + 2 - k ≤ fuel →
      (pollLoopAux T finish k fuel).1 = .timedOut (T + 1) := by
  intro fuel
  induction fuel with
  | zero => intro k h1 h2; omega
  | succ n ih =>
    intro k h1 h2
    by_cases hk : T < k
    · have hk1 : k = T + 1 := by omega
      simp [pollLoopAux, hk, hk1]
    · have hnf : finishedBy finish k = false := by
        cases hf : finish with
        | none => simp [finishedBy]
        | some f =>
          have := hfin f hf
          simp only [finishedBy, decide_eq_false_iff_not]
          omega
      simp only [pollLoopAux, if_neg hk, hnf, if_false, Bool.false_eq_true]
      exact ih (k + 1) (by omega) (by omega)

theorem pollLoopAux_finished (T f : Nat) (hfT : f ≤ T) :
    ∀ fuel k, k ≤ f → f + 1 - k ≤ fuel →
      (pollLoopAux T (some f) k fuel).1 = .finished f := by
  intro fuel
  induction fuel with
  | zero => intro k h1 h2; omega
  | succ n ih =>
    intro k h1 h2
    have hk : ¬ T < k := by omega
    by_cases hkf : f ≤ k
    · have hkeq : k = f := by omega
      subst hkeq
      simp [pollLoopAux, hk, finishedBy]
    · have hnf : finishedBy (some f) k = false := by
        simp only [finishedBy, decide_eq_false_iff_not]
        omega
      simp only [pollLoopAux, if_neg hk, hnf, if_false, Bool.false_eq_true]
      exact ih (k + 1) (by omega) (by omega)

theorem pollLoopAux_waits_bounded (T : Nat) (finish : Option Nat) :
    ∀ fuel k, ((pollLoopAux T finish k fuel).2).all (fun w => w == 1) = true := by
  intro fuel
  induction fuel with
  | zero => intro k; simp [pollLoopAux]
  | succ n ih =>
    intro k
    by_cases hk : T < k
    · simp [pollLoopAux, hk]
    · by_cases hf : finishedBy finish k
      · simp [pollLoopAux, hk, hf]
      · simp only [pollLoopAux, if_neg hk, hf, if_false, Bool.false_eq_true,
          List.all_cons, Bool.and_eq_true, beq_self_eq_true, true_and]
        exact ih (k + 1)

theorem pollLoop_timedOut (T : Nat) (finish : Option Nat)
    (hfin : ∀ f, finish = some f → T < f) :
    pollLoop T finish = .timedOut (T + 1) :=
  pollLoopAux_stillRunning T finish hfin (T + 2) 0 (by omega) (by omega)

theorem pollLoop_finished (T f : Nat) (hfT : f ≤ T) :
    pollLoop T (some f) = .finished f :=
  pollLoopAux_finished T f hfT (T + 2) 0 (by omega) (by omega)

/-- Characterisation of the boolean returned by `run_user_command`: it is
`true` exactly when the spawn succeeded, the process was observed
terminated at some tick within the timeout, and its return code was 0. -/
theorem run_user_ok_iff (T : Nat) (p : ProcEnv) :
    (run_user_command T p).ok = true ↔
      p.spawnErr = false ∧ ∃ f, p.finish = some f ∧ f ≤ T ∧ p.returncode = 0 := by
  cases hs : p.spawnErr with
  | true => simp [run_user_command, hs]
  | false =>
    cases hf : p.finish with
    | none =>
      rw [run_user_command, if_neg (by simp [hs]), hf,
        pollLoop_timedOut T none (by intro f h; cases h)]
      simp [runFromExit, hf]
    | some f =>
      by_cases hft : f ≤ T
      · rw [run_user_command, if_neg (by simp [hs]), hf, pollLoop_finished T f hft]
        simp [runFromExit, hft]
      · rw [run_user_command, if_neg (by simp [hs]), hf,
          pollLoop_timedOut T (some f) (by intro g hg; injection hg with h; omega)]
        simp only [runFromExit, Bool.false_eq_true, false_iff, not_and]
        intro _
        rintro ⟨g, hg, hgT, _⟩
        injection hg with hgf
        omega

theorem run_polkit_ok_iff (T : Nat) (p : ProcEnv) :
    (run_polkit_command T p).ok = true ↔
      p.spawnErr = false ∧ ∃ f, p.finish = some f ∧ f ≤ T ∧ p.returncode = 0 := by
  rw [run_polkit_eq_run_user]
  exact run_user_ok_iff T p

/-- On the timeout path both runners return at tick `T + 1`, having sent
only `terminate()`, with result `False`. -/
theorem run_timeout_shape (T : Nat) (p : ProcEnv)
    (hs : p.spawnErr = false) (hr : ∀ f, p.finish = some f → T < f) :
    run_user_command T p = ⟨false, [.terminate], T + 1⟩ ∧
      run_polkit_command T p = ⟨false, [.terminate], T + 1⟩ := by
  have h := pollLoop_timedOut T p.finish hr
  constructor
  · rw [run_user_command, if_neg (by simp [hs]), h]; rfl
  · rw [run_polkit_command, if_neg (by simp [hs]), h]; rfl

/-! ### The step sequencer of `src/install.py` (`run_installation`)

`run_installation` iterates over a fixed list of 15 `(step_func,
description)` pairs.  For each step `i` (1-based in the Python code) it
first publishes progress `(i, total_steps)` via `update_progress` (whose
UI half computes the fraction `step / total`), logs, runs the step
function, and — whatever the step returned — merely logs a warning on
failure and continues with the next step.  After the loop it publishes
`(total_steps + 1, total_steps + 2)`, launches nwg-displays, publishes
`(total_steps + 2, total_steps + 2)` and shows the success dialog.  The
steps carry no fatal/non-fatal flag of any kind: the tuple is just the
function and a description string.  We model the outcome of step `i`
(0-based here) by a function `Nat → Bool`. -/

/-- The 15 step descriptions of `run_installation` in `src/install.py`. -/
def stepDescs : List String :=
  ["Installing yay AUR helper", "Installing packages", "Creating directories",
   "Installing fonts", "Cloning zsh plugins", "Installing oh-my-zsh",
   "Setting up zsh plugins", "Creating symlinks", "Setting up cursor theme",
   "Setting up SDDM", "Setting up GRUB", "Setting up nct6687d driver",
   "Starting swww", "Setting up pywal", "Cleaning up"]

/-- Observable trace of the step loop: published `(step, total)` progress
pairs, indices of steps whose function was invoked, and indices logged as
warnings because the step function returned `False`. -/
structure LoopOut where
  progress : List (Nat × Nat)
  executed : List Nat
  warnings : List Nat
deriving DecidableEq, Repr

/-- The `for i, (step_func, description) in enumerate(steps, 1)` loop of
`src/install.py`: publish `(i + 1, n)` (1-based), invoke step `i`, and on a
`False` result only record a warning — the loop never breaks. -/
def stepLoop (stepOk : Nat → Bool) (n : Nat) : List Nat → LoopOut
  | [] => ⟨[], [], []⟩
  | i :: rest =>
    let t := stepLoop stepOk n rest
    ⟨(i + 1, n) :: t.progress, i :: t.executed,
     if stepOk i then t.warnings else i :: t.warnings⟩

/-- Full trace of one `run_installation` call. -/
structure RunTrace where
  progress : List (Nat × Nat)
  executed : List Nat
  warnings : List Nat
  completed : Bool
deriving DecidableEq, Repr

/-- `run_installation` of `src/install.py`: the step loop over all 15
steps, then the two post-loop progress updates `(16, 17)` (nwg-displays)
and `(17, 17)` (completion), and the success dialog (`completed`). -/
def run_installation (stepOk : Nat → Bool) : RunTrace :=
  let n := stepDescs.length
  let t := stepLoop stepOk n (List.range n)
  ⟨t.progress ++ [(n + 1, n + 2), (n + 2, n + 2)], t.executed, t.warnings, true⟩

/-- The fractions published on the progress bar, as computed by
`_update_progress_ui` (`fraction = step / total`; `total` is always
positive here). -/
def progressFractions (stepOk : Nat → Bool) : List ℚ :=
  (run_installation stepOk).progress.map (fun p => (p.1 : ℚ) / (p.2 : ℚ))

theorem stepLoop_progress (stepOk : Nat → Bool) (n : Nat) :
    ∀ l, (stepLoop stepOk n l).progress = l.map (fun i => (i + 1, n)) := by
  intro l
  induction l with
  | nil => rfl
  | cons i rest ih => simp [stepLoop, ih]

theorem stepLoop_executed (stepOk : Nat → Bool) (n : Nat) :
    ∀ l, (stepLoop stepOk n l).executed = l := by
  intro l
  induction l with
  | nil => rfl
  | cons i rest ih => simp [stepLoop, ih]

theorem stepLoop_warnings (stepOk : Nat → Bool) (n : Nat) :
    ∀ l, (stepLoop stepOk n l).warnings = l.filter (fun i => !(stepOk i)) := by
  intro l
  induction l with
  | nil => rfl
  | cons i rest ih =>
    cases h : stepOk i with
    | true => simp [stepLoop, ih, List.filter_cons, h]
    | false => simp [stepLoop, ih, List.filter_cons, h]

theorem run_installation_executed (stepOk : Nat → Bool) :
    (run_installation stepOk).executed = List.range 15 := by
  simp [run_installation, stepLoop_executed, stepDescs]

theorem run_installation_completed (stepOk : Nat → Bool) :
    (run_installation stepOk).completed = true := rfl

/-- The published `(step, total)` pairs do not depend on the step results:
`update_progress` is called before each step function, the loop never
breaks, and the two post-loop updates are unconditional. -/
theorem run_installation_progress (stepOk : Nat → Bool) :
    (run_installation stepOk).progress =
      [(1, 15), (2, 15), (3, 15), (4, 15), (5, 15), (6, 15), (7, 15), (8, 15),
       (9, 15), (10, 15), (11, 15), (12, 15), (13, 15), (14, 15), (15, 15),
       (16, 17), (17, 17)] := rfl

/-- The fractions shown on the progress bar during any `src/install.py`
run, in publication order. -/
theorem progressFractions_eq (stepOk : Nat → Bool) :
    progressFractions stepOk =
      [1/15, 2/15, 3/15, 4/15, 5/15, 6/15, 7/15, 8/15, 9/15, 10/15, 11/15,
       12/15, 13/15, 14/15, 15/15, 16/17, 17/17] := by
  rw [progressFractions, run_installation_progress]
  simp only [List.map_cons, List.map_nil]
  norm_num

end Install

namespace HxA

/-! ### The step sequencer of `src/HxA.py`

`run_installation` in `src/HxA.py` iterates over 16 steps; on the first
step whose function returns `False` it logs an error, shows the error
dialog and returns — every step failure is fatal.  Only when all steps
succeed does it publish the two post-loop progress updates and the success
dialog. -/

/-- The 16 step descriptions of `run_installation` in `src/HxA.py`. -/
def stepDescs : List String :=
  ["Installing yay AUR helper", "Installing packages", "Creating directories",
   "Installing fonts", "Cloning zsh plugins", "Installing oh-my-zsh",
   "Setting up zsh plugins", "Creating symlinks", "Setting up cursor theme",
   "Setting up SDDM", "Setting up GRUB", "Setting up nct6687d driver",
   "Starting swww", "Setting up pywal", "Cleaning up",
   "Installing flatpak apps (optional)"]

/-- Terminal outcome of an `src/HxA.py` run: all steps succeeded, or the
run halted at the (0-based) index of the first failing step. -/
inductive Outcome where
  | completed
  | failedAt (i : Nat)
deriving DecidableEq, Repr

/-- Observable trace of the `src/HxA.py` step loop. -/
structure LoopOut where
  outcome : Outcome
  executed : List Nat
  progress : List (Nat × Nat)
deriving DecidableEq, Repr

/-- The step loop of `run_installation` in `src/HxA.py`: publish progress,
invoke the step, and return immediately (error dialog) on a `False`
result. -/
def stepLoop (stepOk : Nat → Bool) (n : Nat) : List Nat → LoopOut
  | [] => ⟨.completed, [], []⟩
  | i :: rest =>
    if stepOk i then
      let t := stepLoop stepOk n rest
      ⟨t.outcome, i :: t.executed, (i + 1, n) :: t.progress⟩
    else ⟨.failedAt i, [i], [(i + 1, n)]⟩

/-- `run_installation` of `src/HxA.py`: the loop over all 16 steps; only a
fully successful loop reaches the two post-loop progress updates. -/
def run_installation (stepOk : Nat → Bool) : LoopOut :=
  let n := stepDescs.length
  let t := stepLoop stepOk n (List.range n)
  match t.outcome with
  | .completed => { t with progress := t.progress ++ [(n + 1, n + 2), (n + 2, n + 2)] }
  | .failedAt _ => t

theorem stepLoop_all_ok (stepOk : Nat → Bool) (n : Nat) :
    ∀ l, (∀ j ∈ l, stepOk j = true) →
      stepLoop stepOk n l = ⟨.completed, l, l.map (fun i => (i + 1, n))⟩ := by
  intro l
  induction l with
  | nil => intro _; rfl
  | cons i rest ih =>
    intro h
    have hi : stepOk i = true := h i (List.mem_cons_self i rest)
    simp [stepLoop, hi, ih (fun j hj => h j (List.mem_cons_of_mem i hj))]

theorem stepLoop_first_fail (stepOk : Nat → Bool) (n : Nat) :
    ∀ (l1 : List Nat) (k : Nat) (l2 : List Nat),
      (∀ j ∈ l1, stepOk j = true) → stepOk k = false →
      stepLoop stepOk n (l1 ++ k :: l2) =
        ⟨.failedAt k, l1 ++ [k], (l1 ++ [k]).map (fun i => (i + 1, n))⟩ := by
  intro l1
  induction l1 with
  | nil => intro k l2 _ hk; simp [stepLoop, hk]
  | cons a t ih =>
    intro k l2 h hk
    have ha : stepOk a = true := h a (List.mem_cons_self a t)
    simp [stepLoop, ha, ih k l2 (fun j hj => h j (List.mem_cons_of_mem a hj)) hk]

/-- `run_user_command` of `src/HxA.py` uses
`subprocess.run(cmd, shell=True, capture_output=True, ...)`: a single
blocking call that only returns once the process has exited and both pipes
have reached EOF — there is no timeout and no polling.  `duration` is how
many ticks the call blocks (the process lifetime); the second component of
the result is that blocking time. -/
structure Proc where
  duration : Nat
  returncode : Int
  spawnErr : Bool
deriving DecidableEq, Repr

def run_user_command (p : Proc) : Bool × Nat :=
  if p.spawnErr then (false, 0)
  else (p.returncode == 0, p.duration)

end HxA

/-! ### Consumer interface and run status

Both installers wire exactly two user actions in `create_ui`: the
"Start Installation" button (`start_installation`) and the "Quit" button
(window destroy).  There is no cancel action of any kind.  The status
taxonomy below is the spec's (`Pending/Running/Succeeded/Failed/
Cancelled`); the code never produces `cancelled`. -/

inductive Op where
  | startInstallation
  | quitWindow
  | requestCancel
deriving DecidableEq, Repr

/-- The button handlers connected in `create_ui` of `src/install.py`. -/
def Install.consumerOps : List Op := [.startInstallation, .quitWindow]

/-- The button handlers connected in `create_ui` of `src/HxA.py`. -/
def HxA.consumerOps : List Op := [.startInstallation, .quitWindow]

inductive Status where
  | pending
  | running
  | succeeded
  | failed
  | cancelled
deriving DecidableEq, Repr

/-- Terminal status of an `src/install.py` run: the success dialog is shown
whenever the loop completes (which it always does — step failures only
warn). -/
def Install.finalStatus (stepOk : Nat → Bool) : Status :=
  if (Install.run_installation stepOk).completed then .succeeded else .failed

/-- Terminal status of an `src/HxA.py` run: error dialog on the first
failing step, success dialog otherwise. -/
def HxA.finalStatus (stepOk : Nat → Bool) : Status :=
  match (HxA.run_installation stepOk).outcome with
  | .completed => .succeeded
  | .failedAt _ => .failed

/-! ### `start_installation` (both variants)

Both variants begin with `if self.is_installing: return` — before the log
buffer is cleared and before any thread is created.  `src/install.py`
additionally shows an OK/Cancel warning dialog after clearing the log and
starts the worker thread only on OK; `src/HxA.py` starts it directly. -/

structure UIState where
  is_installing : Bool
  logText : String
deriving DecidableEq, Repr

structure StartResult where
  state : UIState
  threadStarted : Bool
deriving DecidableEq, Repr

/-- `start_installation` of `src/install.py`; `dialogOk` is the user's
response to the confirmation dialog. -/
def Install.start_installation (dialogOk : Bool) (s : UIState) : StartResult :=
  if s.is_installing then ⟨s, false⟩
  else
    let s1 : UIState := { s with logText := "" }
    if dialogOk then ⟨s1, true⟩ else ⟨s1, false⟩

/-- `start_installation` of `src/HxA.py` (no confirmation dialog). -/
def HxA.start_installation (s : UIState) : StartResult :=
  if s.is_installing then ⟨s, false⟩
  else ⟨{ s with logText := "" }, true⟩

namespace Install

/-! ### `install_yay` of `src/install.py` (fallback policy)

`install_yay` runs: the yay check; `pacman` deps via polkit (abort on
failure); the `git clone` of yay as user — on failure the declared
alternate strategy, a binary download via polkit, is tried, and if that
also fails the function returns `False`; on a successful clone, `makepkg`
via polkit with a `sudo makepkg` alternate; finally a verification check.
Each runner invocation is logged with its own description, so attempts are
distinguishable in the log. -/

inductive AttKind where
  | user
  | polkit
  | sudo
deriving DecidableEq, Repr

/-- One runner invocation: which runner and the description it logs. -/
structure Attempt where
  kind : AttKind
  desc : String
deriving DecidableEq, Repr

/-- Environment for `install_yay`: outcomes of the external commands it
may run, plus the two `which yay` checks. -/
structure YayEnv where
  yayInstalled : Bool
  depsOk : Bool
  cloneOk : Bool
  downloadOk : Bool
  buildOk : Bool
  sudoRc : Int
  yayAfter : Bool
deriving Repr

/-- Translation of `install_yay` from `src/install.py`, returning its
boolean result and the ordered list of runner invocations (the `chmod`
after a successful binary download and the `sudo makepkg` fallback have
their results ignored / checked as in the source). -/
def install_yay (e : YayEnv) : Bool × List Attempt :=
  if e.yayInstalled then (true, [])
  else
    let deps : Attempt := ⟨.polkit, "Install build dependencies"⟩
    if e.depsOk = false then (false, [deps])
    else if e.cloneOk = false then
      let tried := [deps, ⟨.user, "Clone yay"⟩, ⟨.polkit, "Download yay binary"⟩]
      if e.downloadOk = false then (false, tried)
      else (true, tried ++ [⟨.polkit, "Make yay executable"⟩])
    else
      let tried := [deps, ⟨.user, "Clone yay"⟩, ⟨.polkit, "Build and install yay"⟩]
      if e.buildOk = false then
        if e.sudoRc ≠ 0 then (false, tried ++ [⟨.sudo, "makepkg -si"⟩])
        else (e.yayAfter, tried ++ [⟨.sudo, "makepkg -si"⟩])
      else (e.yayAfter, tried)

/-! ### `install_packages` of `src/install.py` (batch install with
per-package retry)

`install_packages` aborts (returning `False`) if yay is missing, runs a
database update as a user command whose failure only logs a warning, then
installs the 56 packages in batches of 10 via `run_polkit_command`.  When
a batch command fails — for any reason, including a denied pkexec
authentication — it immediately reissues the same elevated install
per package of the batch; individual failures only log a warning.  The
function always returns `True` after the loop. -/

/-- The package list of `src/install.py`. -/
def packages : List String :=
  ["swww", "qt5-quickcontrols", "qt5-quickcontrols2", "qt5-graphicaleffects",
   "hypridle", "hyprlock", "hyprpicker", "tree", "qt5ct", "qt6ct", "qt5-styleplugins",
   "wl-clipboard", "firefox", "code", "nemo", "vlc", "nwg-look", "gnome-disk-utility",
   "nwg-displays", "zsh", "ttf-meslo-nerd", "ttf-font-awesome", "ttf-font-awesome-4",
   "ttf-font-awesome-5", "waybar", "rust", "cargo", "fastfetch", "cmatrix", "pavucontrol",
   "net-tools", "python-pip", "python-psutil", "python-virtualenv", "python-requests",
   "python-hijri-converter", "python-pytz", "python-gobject", "xfce4-settings",
   "xfce-polkit", "exa", "libreoffice-fresh", "rofi-wayland", "neovim", "goverlay-git",
   "flatpak", "python-pywal16", "python-pywalfox", "make", "linux-firmware", "dkms",
   "automake", "linux-zen-headers", "kvantum-qt5", "chromium", "nemo-fileroller",
   "waybar-module-pacman-updates-git", "coolercontrol-bin"]

def batch_size : Nat := 10

/-- `range(0, len(packages), batch_size)` of the Python loop. -/
def batchStarts : List Nat :=
  (List.range ((packages.length + batch_size - 1) / batch_size)).map
    (fun j => j * batch_size)

/-- The elevated command for a whole batch:
`yay -S --needed --noconfirm {' '.join(batch)}`. -/
def batchCmd (b : List String) : String :=
  "yay -S --needed --noconfirm " ++ String.intercalate " " b

/-- The elevated command reissued for a single package:
`yay -S --needed --noconfirm {pkg}`. -/
def pkgCmd (p : String) : String :=
  "yay -S --needed --noconfirm " ++ p

/-- Environment for `install_packages`: the yay check, the database
update, the result of each batch command (indexed by `i / batch_size`,
matching the Python batch number), and of each per-package command.  A
denied pkexec authentication is indistinguishable here from any other
failure: `run_polkit_command` reports both as `False`.  Per-package
failures and a failed update only log warnings, so `pkgOk` and `updateOk`
never influence the result. -/
structure PkgEnv where
  yayInstalled : Bool
  updateOk : Bool
  batchOk : Nat → Bool
  pkgOk : String → Bool

/-- The batch loop of `install_packages`: for each batch start `i`, run the
batch command via polkit; on failure reissue the same elevated install for
every package of the batch.  Returns the ordered list of elevated command
strings issued. -/
def batchLoop (e : PkgEnv) : List Nat → List String
  | [] => []
  | i :: rest =>
    let b := (packages.drop i).take batch_size
    (batchCmd b :: (if e.batchOk (i / batch_size) then [] else b.map pkgCmd)) ++
      batchLoop e rest

/-- Translation of `install_packages` from `src/install.py`: result and the
ordered elevated commands issued. -/
def install_packages (e : PkgEnv) : Bool × List String :=
  if e.yayInstalled = false then (false, [])
  else (true, batchLoop e batchStarts)

end Install

/-! ## Claims -/

/-- C1 (counterexample).  The claim states that for an all-success run the
published progress fractions are monotonically non-decreasing and attain
1.0 exactly once, at the end of the run.  On the all-success run the loop
already publishes `15/15 = 1.0` at its final step, after which the
post-loop update publishes `16/17 < 1.0`: the sequence is not
non-decreasing and 1.0 is attained twice. -/
theorem C1_progress_counterexample :
    ¬ ((Install.progressFractions (fun _ => true)).Chain' (· ≤ ·) ∧
       (Install.progressFractions (fun _ => true)).count 1 = 1) := by
  rw [Install.progressFractions_eq]
  rintro ⟨hmono, -⟩
  revert hmono
  simp only [List.chain'_cons, List.chain'_singleton]
  norm_num

/-- C1 (amended).  For every run of `src/install.py` the published
fractions are exactly `1/15, …, 15/15, 16/17, 17/17`: non-decreasing
through the loop (whose last update already reaches 1.0), then a single
decrease to `16/17`, then back to 1.0 at completion — so 1.0 is attained
exactly twice, once at the final loop step and once at the end of the
run. -/
theorem C1_progress_profile (stepOk : Nat → Bool) :
    Install.progressFractions stepOk =
      [1/15, 2/15, 3/15, 4/15, 5/15, 6/15, 7/15, 8/15, 9/15, 10/15, 11/15,
       12/15, 13/15, 14/15, 15/15, 16/17, 17/17] ∧
    List.Chain' (· ≤ ·) ((Install.progressFractions stepOk).take 15) ∧
    (Install.progressFractions stepOk).count 1 = 2 := by
  have h := Install.progressFractions_eq stepOk
  refine ⟨h, ?_, ?_⟩
  · rw [h]
    have ht : ([1/15, 2/15, 3/15, 4/15, 5/15, 6/15, 7/15, 8/15, 9/15, 10/15,
        11/15, 12/15, 13/15, 14/15, 15/15, 16/17, 17/17] : List ℚ).take 15 =
        [1/15, 2/15, 3/15, 4/15, 5/15, 6/15, 7/15, 8/15, 9/15, 10/15,
         11/15, 12/15, 13/15, 14/15, 15/15] := rfl
    rw [ht]
    simp only [List.chain'_cons, List.chain'_singleton]
    norm_num
  · rw [h]
    norm_num [List.count_cons]

/-- C2 (counterexample).  The claim states that a failing step halts the
run with a Failed outcome and no later step starts, unless the step is
explicitly declared non-fatal.  In `src/install.py` no step carries any
fatal/non-fatal declaration (a step is just a function and a description),
yet when step 0 fails the run logs a warning, executes every remaining
step, and completes. -/
theorem C2_step_policy_counterexample :
    (Install.run_installation (fun i => i != 0)).warnings = [0] ∧
    (Install.run_installation (fun i => i != 0)).executed = List.range 15 ∧
    (Install.run_installation (fun i => i != 0)).completed = true := by decide

/-- C2 (amended).  Neither installer has per-step fatal/non-fatal
configuration; the policy is uniform per variant: `src/install.py` treats
every step failure as non-fatal (it records a warning for exactly the
failing steps, executes all 15 steps and completes), while `src/HxA.py`
treats every step failure as fatal (the run halts at the first failing
step `k` with a Failed outcome and no step after `k` starts). -/
theorem C2_step_policy (stepOk : Nat → Bool) (k : Nat)
    (hk : k < 16) (hfail : stepOk k = false)
    (hbefore : ∀ j, j < k → stepOk j = true) :
    (Install.run_installation stepOk).executed = List.range 15 ∧
    (Install.run_installation stepOk).completed = true ∧
    (Install.run_installation stepOk).warnings =
      (List.range 15).filter (fun i => !(stepOk i)) ∧
    HxA.run_installation stepOk =
      ⟨.failedAt k, List.range (k + 1),
       (List.range (k + 1)).map (fun i => (i + 1, 16))⟩ := by
  refine ⟨Install.run_installation_executed stepOk,
    Install.run_installation_completed stepOk, ?_, ?_⟩
  · rw [show (Install.run_installation stepOk).warnings =
      (Install.stepLoop stepOk Install.stepDescs.length
        (List.range Install.stepDescs.length)).warnings from rfl,
      Install.stepLoop_warnings]
    rfl
  · have hlen : HxA.stepDescs.length = 16 := rfl
    have h16 : (16 : ℕ) = k + ((15 - k) + 1) := by omega
    have hdecomp : List.range 16 = List.range k ++
        k :: ((List.range (15 - k)).map (fun x => k + Nat.succ x)) := by
      rw [h16, List.range_add, List.range_succ_eq_map]
      simp [List.map_cons, Nat.add_zero]
    have hml : ∀ j ∈ List.range k, stepOk j = true := by
      intro j hj
      exact hbefore j (List.mem_range.mp hj)
    have hloop := HxA.stepLoop_first_fail stepOk 16 (List.range k) k
        ((List.range (15 - k)).map (fun x => k + Nat.succ x)) hml hfail
    rw [HxA.run_installation, hlen, hdecomp, hloop]
    rw [← List.range_succ]

/-- C2 (witness): the amended statement at the concrete run in which step
3 is the first failure. -/
theorem C2_step_policy_witness :
    (Install.run_installation (fun i => i != 3)).executed = List.range 15 ∧
    (Install.run_installation (fun i => i != 3)).completed = true ∧
    (Install.run_installation (fun i => i != 3)).warnings =
      (List.range 15).filter (fun i => !(i != 3)) ∧
    HxA.run_installation (fun i => i != 3) =
      ⟨.failedAt 3, List.range 4, (List.range 4).map (fun i => (i + 1, 16))⟩ :=
  C2_step_policy (fun i => i != 3) 3 (by norm_num) rfl (by decide)

/-- C3 (counterexample).  The claim states that on timeout the runner
terminates, waits a grace period, force-kills if still alive, and reports
an outcome distinct from other failures.  For a process that never dies,
`run_user_command` sends only `terminate()` (never `kill()`), returns at
the very tick the timeout check fires (no grace wait), and its result
equals the result for an ordinary nonzero exit. -/
theorem C3_timeout_path_counterexample :
    Install.run_user_command 5 ⟨none, 0, false⟩ = ⟨false, [.terminate], 6⟩ ∧
    Install.ProcAction.kill ∉ (Install.run_user_command 5 ⟨none, 0, false⟩).actions ∧
    (Install.run_user_command 5 ⟨none, 0, false⟩).ok =
      (Install.run_user_command 5 ⟨some 0, 1, false⟩).ok := by decide

/-- C3 (amended).  When the subprocess outlives the timeout, both runners
of `src/install.py` call `terminate()` once and return `False`
immediately at tick `T + 1`: there is no grace-period wait, no force
kill, and the timeout outcome is the same `False` returned for any other
failure (distinguished only by a log message). -/
theorem C3_timeout_path (T : Nat) (p : Install.ProcEnv)
    (hs : p.spawnErr = false) (hr : ∀ f, p.finish = some f → T < f) :
    (Install.run_user_command T p).actions = [Install.ProcAction.terminate] ∧
    (Install.run_polkit_command T p).actions = [Install.ProcAction.terminate] ∧
    Install.ProcAction.kill ∉ (Install.run_user_command T p).actions ∧
    (Install.run_user_command T p).ok = false ∧
    (Install.run_user_command T p).tick = T + 1 := by
  obtain ⟨hu, hpk⟩ := Install.run_timeout_shape T p hs hr
  rw [hu, hpk]
  exact ⟨rfl, rfl, by simp, rfl, rfl⟩

/-- C3 (witness): the amended statement at a concrete never-terminating
process with a 4-tick timeout. -/
theorem C3_timeout_path_witness :
    (Install.run_user_command 4 ⟨none, 7, false⟩).actions = [Install.ProcAction.terminate] ∧
    (Install.run_polkit_command 4 ⟨none, 7, false⟩).actions = [Install.ProcAction.terminate] ∧
    Install.ProcAction.kill ∉ (Install.run_user_command 4 ⟨none, 7, false⟩).actions ∧
    (Install.run_user_command 4 ⟨none, 7, false⟩).ok = false ∧
    (Install.run_user_command 4 ⟨none, 7, false⟩).tick = 5 :=
  C3_timeout_path 4 ⟨none, 7, false⟩ rfl (fun _f h => Option.noConfusion h)

/-- C4 (counterexample).  The claim states that a denied authentication
surfaces as a distinct AuthDenied outcome after which the sequencer halts
the step and never reissues the command.  A pkexec denial (return code
126) produces exactly the same runner result as an ordinary failure
(return code 1); and when a batch install fails, `install_packages`
immediately reissues the same elevated install per package of the batch
and still returns `True`. -/
theorem C4_auth_retry_counterexample :
    Install.run_polkit_command 3000 ⟨some 0, 126, false⟩ =
      Install.run_polkit_command 3000 ⟨some 0, 1, false⟩ ∧
    (Install.install_packages ⟨true, true, fun _ => false, fun _ => true⟩).1 = true ∧
    (Install.install_packages ⟨true, true, fun _ => false, fun _ => true⟩).2.take 2 =
      ["yay -S --needed --noconfirm swww qt5-quickcontrols qt5-quickcontrols2 qt5-graphicaleffects hypridle hyprlock hyprpicker tree qt5ct qt6ct",
       "yay -S --needed --noconfirm swww"] := by decide

/-- C4 (amended).  `run_polkit_command` reports a denied or failed
authentication as the same `False` as any other nonzero exit (there is no
distinct AuthDenied outcome), and after a failed elevated batch
`install_packages` reissues the same elevated install once per package of
that batch before moving on, returning `True` regardless. -/
theorem C4_auth_retry (T : Nat) (p : Install.ProcEnv) (e : Install.PkgEnv)
    (hp : p.returncode ≠ 0) (hyay : e.yayInstalled = true)
    (hb : e.batchOk 0 = false) :
    (Install.run_polkit_command T p).ok = false ∧
    (Install.install_packages e).1 = true ∧
    (Install.install_packages e).2.take 11 =
      Install.batchCmd (Install.packages.take 10) ::
        (Install.packages.take 10).map Install.pkgCmd := by
  refine ⟨?_, ?_, ?_⟩
  · cases h : (Install.run_polkit_command T p).ok with
    | false => rfl
    | true =>
      obtain ⟨-, f, -, -, hrc⟩ := (Install.run_polkit_ok_iff T p).mp h
      exact absurd hrc hp
  · simp [Install.install_packages, hyay]
  · rw [Install.install_packages, if_neg (by simp [hyay]),
      show Install.batchStarts = [0, 10, 20, 30, 40, 50] from rfl,
      Install.batchLoop, show (0 : ℕ) / Install.batch_size = 0 from rfl, hb]
    simp only [Bool.false_eq_true, if_false, List.cons_append]
    rw [show (Install.packages.drop 0).take Install.batch_size =
      Install.packages.take 10 from rfl]
    rw [show (11 : ℕ) = 10 + 1 from rfl, List.take_succ_cons,
      List.take_left' (by rfl)]

/-- C4 (witness): the amended statement at a concrete pkexec denial
(return code 126) and a run whose first batch fails. -/
theorem C4_auth_retry_witness :
    (Install.run_polkit_command 3000 ⟨some 2, 126, false⟩).ok = false ∧
    (Install.install_packages ⟨true, false, fun _ => false, fun _ => true⟩).1 = true ∧
    (Install.install_packages ⟨true, false, fun _ => false, fun _ => true⟩).2.take 11 =
      Install.batchCmd (Install.packages.take 10) ::
        (Install.packages.take 10).map Install.pkgCmd :=
  C4_auth_retry 3000 ⟨some 2, 126, false⟩ ⟨true, false, fun _ => false, fun _ => true⟩
    (by decide) rfl rfl

/-- C5 (confirmed).  A command whose subprocess outlives the timeout
always resolves on the timeout path at tick `T + 1` — i.e. within the
timeout plus one poll interval (the grace period being zero) — with
result `False` and a `terminate()`; the runner call never hangs,
whatever the subprocess does. -/
theorem C5_timeout_resolution (T : Nat) (p : Install.ProcEnv)
    (hs : p.spawnErr = false) (hr : ∀ f, p.finish = some f → T < f) :
    Install.run_user_command T p = ⟨false, [.terminate], T + 1⟩ ∧
    Install.run_polkit_command T p = ⟨false, [.terminate], T + 1⟩ :=
  Install.run_timeout_shape T p hs hr

/-- C5 (witness): a process that never terminates under a 5-tick timeout
resolves at tick 6. -/
theorem C5_timeout_resolution_witness :
    Install.run_user_command 5 ⟨none, 0, false⟩ = ⟨false, [.terminate], 6⟩ ∧
    Install.run_polkit_command 5 ⟨none, 0, false⟩ = ⟨false, [.terminate], 6⟩ :=
  C5_timeout_resolution 5 ⟨none, 0, false⟩ rfl (fun _f h => Option.noConfusion h)

/-- C6 (confirmed).  `install_yay` declares one alternate strategy for the
yay clone command (the binary download).  When the primary attempt and the
alternate both fail, exactly those two attempts are executed for that
command (N + 1 = 2 runner invocations after the dependency install), each
appears exactly once in the attempt log under its own distinct record, and
the final outcome is failure. -/
theorem C6_fallback_attempts (e : Install.YayEnv)
    (h0 : e.yayInstalled = false) (h1 : e.depsOk = true)
    (h2 : e.cloneOk = false) (h3 : e.downloadOk = false) :
    Install.install_yay e =
      (false, [⟨.polkit, "Install build dependencies"⟩, ⟨.user, "Clone yay"⟩,
               ⟨.polkit, "Download yay binary"⟩]) ∧
    (Install.install_yay e).2.count ⟨.user, "Clone yay"⟩ = 1 ∧
    (Install.install_yay e).2.count ⟨.polkit, "Download yay binary"⟩ = 1 ∧
    (⟨.user, "Clone yay"⟩ : Install.Attempt) ≠ ⟨.polkit, "Download yay binary"⟩ := by
  have hy : Install.install_yay e =
      (false, [⟨.polkit, "Install build dependencies"⟩, ⟨.user, "Clone yay"⟩,
               ⟨.polkit, "Download yay binary"⟩]) := by
    simp [Install.install_yay, h0, h1, h2, h3]
  exact ⟨hy, by rw [hy]; decide, by rw [hy]; decide, by decide⟩

/-- C6 (witness): the statement at a concrete environment in which yay is
absent, the dependencies install, and both the clone and the binary
download fail. -/
theorem C6_fallback_attempts_witness :
    Install.install_yay ⟨false, true, false, false, true, 0, false⟩ =
      (false, [⟨.polkit, "Install build dependencies"⟩, ⟨.user, "Clone yay"⟩,
               ⟨.polkit, "Download yay binary"⟩]) ∧
    (Install.install_yay ⟨false, true, false, false, true, 0, false⟩).2.count
      ⟨.user, "Clone yay"⟩ = 1 ∧
    (Install.install_yay ⟨false, true, false, false, true, 0, false⟩).2.count
      ⟨.polkit, "Download yay binary"⟩ = 1 ∧
    (⟨.user, "Clone yay"⟩ : Install.Attempt) ≠ ⟨.polkit, "Download yay binary"⟩ :=
  C6_fallback_attempts ⟨false, true, false, false, true, 0, false⟩ rfl rfl rfl rfl

/-- C7 (counterexample).  The claim states that the runner never blocks
the controlling context for longer than a bounded poll interval and never
performs a single blocking read-to-EOF.  `run_user_command` of
`src/HxA.py` is `subprocess.run(..., capture_output=True)`: a single
blocking call whose blocking time is the whole process lifetime — 1000
ticks for a 1000-tick process — and no bound covers all processes. -/
theorem C7_blocking_reads_counterexample :
    (HxA.run_user_command ⟨1000, 0, false⟩).2 = 1000 ∧
    ¬ ∃ B : Nat, ∀ p : HxA.Proc, (HxA.run_user_command p).2 ≤ B := by
  refine ⟨rfl, ?_⟩
  rintro ⟨B, hB⟩
  have h := hB ⟨B + 1, 0, false⟩
  simp [HxA.run_user_command] at h

/-- C7 (amended).  The polled runners of `src/install.py` block only in
`time.sleep(0.1)` — every wait of the polling loop is exactly one poll
interval — whereas `run_user_command` of `src/HxA.py` performs one
blocking read-to-EOF whose duration is the full lifetime of the
subprocess. -/
theorem C7_blocking_reads :
    (∀ (T : Nat) (finish : Option Nat),
      (Install.pollWaits T finish).all (fun w => w == 1) = true) ∧
    (∀ p : HxA.Proc,
      (HxA.run_user_command p).2 = if p.spawnErr then 0 else p.duration) := by
  constructor
  · intro T finish
    exact Install.pollLoopAux_waits_bounded T finish (T + 2) 0
  · intro p
    cases hp : p.spawnErr <;> simp [HxA.run_user_command, hp]

/-- C8 (counterexample).  The claim states a cancellation request can be
issued at any time, yields final status Cancelled, and prevents later
commands from starting.  The consumer interface of both installers offers
only Start and Quit — no cancel request exists — and even when step 3
fails mid-run, step 4 still starts and the final status is Succeeded,
never Cancelled. -/
theorem C8_cancellation_counterexample :
    Op.requestCancel ∉ Install.consumerOps ∧
    Op.requestCancel ∉ HxA.consumerOps ∧
    Install.finalStatus (fun i => i != 3) = Status.succeeded ∧
    4 ∈ (Install.run_installation (fun i => i != 3)).executed := by decide

/-- C8 (amended).  No cancellation facility exists: the consumer can only
start a run or quit the application, no run of either installer ever
reaches the Cancelled status, and a started `src/install.py` run executes
all 15 steps regardless of step outcomes. -/
theorem C8_cancellation (stepOk : Nat → Bool) :
    Op.requestCancel ∉ Install.consumerOps ∧
    Op.requestCancel ∉ HxA.consumerOps ∧
    Install.finalStatus stepOk ≠ Status.cancelled ∧
    HxA.finalStatus stepOk ≠ Status.cancelled ∧
    (Install.run_installation stepOk).executed = List.range 15 := by
  refine ⟨by decide, by decide, ?_, ?_, Install.run_installation_executed stepOk⟩
  · rw [show Install.finalStatus stepOk = Status.succeeded from rfl]
    decide
  · unfold HxA.finalStatus
    cases h : (HxA.run_installation stepOk).outcome <;> simp

/-- C9 (confirmed).  Whenever `is_installing` is true, `start_installation`
of either installer returns immediately: the UI state (including the log
buffer) is unchanged and no worker thread is started. -/
theorem C9_single_run (dialogOk : Bool) (s : UIState)
    (h : s.is_installing = true) :
    Install.start_installation dialogOk s = ⟨s, false⟩ ∧
    HxA.start_installation s = ⟨s, false⟩ := by
  constructor <;> simp [Install.start_installation, HxA.start_installation, h]

/-- C9 (witness): the statement at a concrete state with a run in
progress and a non-empty log. -/
theorem C9_single_run_witness :
    Install.start_installation true ⟨true, "previous log"⟩ =
      ⟨⟨true, "previous log"⟩, false⟩ ∧
    HxA.start_installation ⟨true, "previous log"⟩ =
      ⟨⟨true, "previous log"⟩, false⟩ :=
  C9_single_run true ⟨true, "previous log"⟩ rfl

/-- C10 (confirmed).  Both runners of `src/install.py` are total
boolean-valued functions of the process behaviour — every internal
failure, including a spawn exception, is caught and mapped to `False` —
and they return `True` exactly when the spawn succeeded, the subprocess
was observed terminated within the timeout, and its return code was 0. -/
theorem C10_runner_totality (T : Nat) (p : Install.ProcEnv) :
    ((Install.run_user_command T p).ok = true ↔
      p.spawnErr = false ∧ ∃ f, p.finish = some f ∧ f ≤ T ∧ p.returncode = 0) ∧
    ((Install.run_polkit_command T p).ok = true ↔
      p.spawnErr = false ∧ ∃ f, p.finish = some f ∧ f ≤ T ∧ p.returncode = 0) :=
  ⟨Install.run_user_ok_iff T p, Install.run_polkit_ok_iff T p⟩

end Hyprcore
